import Mathlib

/-!
Verification of the galactic-bridge-icp minter against its specification.

The Rust source is shallowly embedded: `HashMap` becomes an association
list with replace-on-insert semantics, `panic!`/failed `assert!` becomes
`Option.none`, and `u64`/`u8` become `Nat` (every value written into a
byte position is kept below 256 by construction or by hypothesis).
-/

namespace GSol

/-! ## Association-list maps (embedding of `std::collections::HashMap`) -/

/-- Lookup by key in an association list. -/
def alookup {κ β : Type} [DecidableEq κ] (k : κ) : List (κ × β) → Option β
  | [] => none
  | (k₂, v) :: t => if k₂ = k then some v else alookup k t

/-- `HashMap::contains_key`. -/
def containsKey {κ β : Type} [DecidableEq κ] (k : κ) (l : List (κ × β)) : Bool :=
  (alookup k l).isSome

/-- `HashMap::remove` (the remaining map). -/
def eraseKey {κ β : Type} [DecidableEq κ] (k : κ) (l : List (κ × β)) : List (κ × β) :=
  l.filter (fun p => decide (p.1 ≠ k))

/-- `HashMap::insert`: the new binding replaces any previous one. -/
def insertKey {κ β : Type} [DecidableEq κ] (k : κ) (v : β) (l : List (κ × β)) :
    List (κ × β) :=
  (k, v) :: eraseKey k l

theorem alookup_insertKey_self {κ β : Type} [DecidableEq κ] (k : κ) (v : β)
    (l : List (κ × β)) : alookup k (insertKey k v l) = some v := by
  simp [insertKey, alookup]

theorem alookup_eraseKey_self {κ β : Type} [DecidableEq κ] (k : κ)
    (l : List (κ × β)) : alookup k (eraseKey k l) = none := by
  induction l with
  | nil => rfl
  | cons h t ih =>
    by_cases hk : h.1 = k
    · simpa [eraseKey, hk] using ih
    · simpa [eraseKey, alookup, hk] using ih

theorem alookup_eraseKey_ne {κ β : Type} [DecidableEq κ] {k k₂ : κ}
    (h : k₂ ≠ k) (l : List (κ × β)) : alookup k₂ (eraseKey k l) = alookup k₂ l := by
  induction l with
  | nil => rfl
  | cons p t ih =>
    by_cases hp : p.1 = k
    · simpa [eraseKey, List.filter_cons, hp, alookup, Ne.symm h] using ih
    · by_cases hq : p.1 = k₂
      · simp [eraseKey, List.filter_cons, hp, alookup, hq, h]
      · simpa [eraseKey, List.filter_cons, hp, alookup, hq] using ih

theorem alookup_insertKey_ne {κ β : Type} [DecidableEq κ] {k k₂ : κ} (v : β)
    (h : k₂ ≠ k) (l : List (κ × β)) : alookup k₂ (insertKey k v l) = alookup k₂ l := by
  have hk : k ≠ k₂ := fun hh => h hh.symm
  simp only [insertKey, alookup, hk, if_false]
  exact alookup_eraseKey_ne h l

/-! ## Entities (src/minter/src/events/mod.rs) -/

/-- `SolanaSignatureRange` from `events/mod.rs`: an open interval of
signatures still to be enumerated, plus a retry counter. -/
structure SolanaSignatureRange where
  before_sol_sig : String
  until_sol_sig : String
  retries : Nat
deriving DecidableEq, Repr

/-- `SolanaSignatureRange::new` — constructs a range with zero retries. -/
def SolanaSignatureRange.new (before until_ : String) : SolanaSignatureRange :=
  ⟨before, until_, 0⟩

/-- `SolanaSignature` from `events/mod.rs`. -/
structure SolanaSignature where
  sol_sig : String
  retries : Nat
deriving DecidableEq, Repr

/-- `SolanaSignature::new`. -/
def SolanaSignature.new (signature : String) : SolanaSignature :=
  ⟨signature, 0⟩

/-- A principal is carried by its raw binary representation
(`candid::Principal`, at most 29 bytes). -/
abbrev PrincipalBytes := List Nat

/-- `ReceivedSolEvent` from `events/mod.rs` (the deposit record). -/
structure ReceivedSolEvent where
  from_sol_address : String
  to_icp_address : PrincipalBytes
  amount : Nat
  sol_sig : String
  icp_mint_block_index : Option Nat
  retries : Nat
deriving DecidableEq, Repr

/-! ## State (src/minter/src/state.rs)

Only the configuration fields are simplified to plain values; every
collection that `apply` touches is embedded one-to-one. -/

/-- The minter `State` from `state.rs`. -/
structure State where
  solana_contract_address : String
  solana_initial_signature : String
  ecdsa_key_name : String
  ledger_id : PrincipalBytes
  minimum_withdrawal_amount : Nat
  solana_last_known_signature : Option String
  solana_signature_ranges : List (String × SolanaSignatureRange)
  solana_signatures : List (String × SolanaSignature)
  invalid_events : List (String × SolanaSignature)
  accepted_events : List (String × ReceivedSolEvent)
  minted_events : List (String × ReceivedSolEvent)
  http_request_counter : Nat
deriving DecidableEq, Repr

/-- `range_key` from `state.rs`. -/
def rangeKey (start endSig : String) : String :=
  start ++ "-" ++ endSig

/-- `State::get_solana_last_known_signature`. -/
def State.getSolanaLastKnownSignature (s : State) : String :=
  match s.solana_last_known_signature with
  | some sig => sig
  | none => s.solana_initial_signature

/-- `State::record_solana_last_known_signature`. -/
def State.recordSolanaLastKnownSignature (s : State) (sig : String) : State :=
  { s with solana_last_known_signature := some sig }

/-- `State::record_solana_signature_range`: panics (`none`) when the
range key is already present. -/
def State.recordSolanaSignatureRange (s : State) (range : SolanaSignatureRange) :
    Option State :=
  let key := rangeKey range.before_sol_sig range.until_sol_sig
  if containsKey key s.solana_signature_ranges then none
  else some { s with
    solana_signature_ranges := insertKey key range s.solana_signature_ranges }

/-- `State::retry_solana_signature_range`: removes the old range (panic
when absent); a supplied sub-range is recorded in its place, otherwise
the stored range is re-inserted with its retry counter incremented. -/
def State.retrySolanaSignatureRange (s : State) (oldRange : SolanaSignatureRange)
    (newRange : Option SolanaSignatureRange) : Option State :=
  let oldKey := rangeKey oldRange.before_sol_sig oldRange.until_sol_sig
  match alookup oldKey s.solana_signature_ranges with
  | none => none
  | some stored =>
    let s₂ := { s with
      solana_signature_ranges := eraseKey oldKey s.solana_signature_ranges }
    match newRange with
    | some nr => s₂.recordSolanaSignatureRange nr
    | none =>
      let bumped : SolanaSignatureRange := { stored with retries := stored.retries + 1 }
      let updated := insertKey oldKey bumped s₂.solana_signature_ranges
      some { s₂ with solana_signature_ranges := updated }

/-- `State::remove_solana_signature_range`: panics when absent. -/
def State.removeSolanaSignatureRange (s : State) (range : SolanaSignatureRange) :
    Option State :=
  let key := rangeKey range.before_sol_sig range.until_sol_sig
  if containsKey key s.solana_signature_ranges then
    some { s with solana_signature_ranges := eraseKey key s.solana_signature_ranges }
  else none

/-- `State::record_solana_signature`: increments the retry counter when
the signature is already pending, inserts it otherwise. -/
def State.recordSolanaSignature (s : State) (sig : SolanaSignature) : State :=
  match alookup sig.sol_sig s.solana_signatures with
  | some existing =>
    let bumped : SolanaSignature := { existing with retries := existing.retries + 1 }
    let updated := insertKey sig.sol_sig bumped (eraseKey sig.sol_sig s.solana_signatures)
    { s with solana_signatures := updated }
  | none =>
    { s with solana_signatures := insertKey sig.sol_sig sig s.solana_signatures }

/-- `State::record_invalid_event`: removes the pending signature (panic
when absent), then `assert!(invalid_events.contains_key(key))` — as
written in the source the assert demands that the key is ALREADY in the
invalid map — then inserts. -/
def State.recordInvalidEvent (s : State) (sig : SolanaSignature) : Option State :=
  let key := sig.sol_sig
  match alookup key s.solana_signatures with
  | none => none
  | some _ =>
    let s₂ := { s with solana_signatures := eraseKey key s.solana_signatures }
    if containsKey key s₂.invalid_events then
      some { s₂ with invalid_events := insertKey key sig s₂.invalid_events }
    else none

/-- `State::record_accepted_event`: removes the pending signature (panic
when absent), then inserts into the accepted map, incrementing the
stored retry counter when the key is already accepted. -/
def State.recordAcceptedEvent (s : State) (deposit : ReceivedSolEvent) : Option State :=
  let key := deposit.sol_sig
  match alookup key s.solana_signatures with
  | none => none
  | some _ =>
    let s₂ := { s with solana_signatures := eraseKey key s.solana_signatures }
    match alookup key s₂.accepted_events with
    | some existing =>
      let bumped : ReceivedSolEvent := { existing with retries := existing.retries + 1 }
      let updated := insertKey key bumped (eraseKey key s₂.accepted_events)
      some { s₂ with accepted_events := updated }
    | none =>
      some { s₂ with accepted_events := insertKey key deposit s₂.accepted_events }

/-- `State::record_minted_event`: removes the accepted event (panic when
absent), then `assert!(minted_events.contains_key(key))` — as written
the assert demands that the key is ALREADY in the minted map — then
inserts. -/
def State.recordMintedEvent (s : State) (deposit : ReceivedSolEvent) : Option State :=
  let key := deposit.sol_sig
  match alookup key s.accepted_events with
  | none => none
  | some _ =>
    let s₂ := { s with accepted_events := eraseKey key s.accepted_events }
    if containsKey key s₂.minted_events then
      some { s₂ with minted_events := insertKey key deposit s₂.minted_events }
    else none

/-! ## Events and audit (src/minter/src/state/event.rs, state/audit.rs) -/

/-- `EventType` from `state/event.rs`, restricted to the variants for
which `apply_state_transition` in `state/audit.rs` defines a transition
(the withdrawal and counter variants have no arm there). `Init` carries
no payload here because `apply` unconditionally panics on it. -/
inductive EventType where
  | initEvent
  | upgrade
  | lastKnownSolanaSignature (signature : String)
  | newSolanaSignatureRange (range : SolanaSignatureRange)
  | removeSolanaSignatureRange (range : SolanaSignatureRange)
  | retrySolanaSignatureRange (range : SolanaSignatureRange)
      (failed_sub_range : Option SolanaSignatureRange) (fail_reason : String)
  | solanaSignature (signature : SolanaSignature) (fail_reason : Option String)
  | invalidEvent (signature : SolanaSignature) (fail_reason : String)
  | acceptedEvent (event_source : ReceivedSolEvent) (fail_reason : Option String)
  | mintedEvent (event_source : ReceivedSolEvent)
deriving DecidableEq, Repr

/-- `apply_state_transition` from `state/audit.rs`; `none` models a trap. -/
def applyStateTransition (s : State) (payload : EventType) : Option State :=
  match payload with
  | .initEvent => none
  | .upgrade => some s
  | .lastKnownSolanaSignature sig => some (s.recordSolanaLastKnownSignature sig)
  | .newSolanaSignatureRange range => s.recordSolanaSignatureRange range
  | .removeSolanaSignatureRange range => s.removeSolanaSignatureRange range
  | .retrySolanaSignatureRange range sub _ => s.retrySolanaSignatureRange range sub
  | .solanaSignature sig _ => some (s.recordSolanaSignature sig)
  | .invalidEvent sig _ => s.recordInvalidEvent sig
  | .acceptedEvent dep _ => s.recordAcceptedEvent dep
  | .mintedEvent dep => s.recordMintedEvent dep

/-- `process_event` from `state/audit.rs`: apply the transition first,
then append the event to the (stable-memory) log; a trapped application
reaches no `record_event`. -/
def processEvent (s : State) (log : List EventType) (payload : EventType) :
    Option (State × List EventType) :=
  match applyStateTransition s payload with
  | none => none
  | some s₂ => some (s₂, log ++ [payload])

/-- The state constructed by the `Init` event (`TryFrom<InitArg> for
State`): every collection starts empty. -/
def initState (contractAddress initialSignature keyName : String)
    (ledgerId : PrincipalBytes) (minimumWithdrawal : Nat) : State :=
  { solana_contract_address := contractAddress
    solana_initial_signature := initialSignature
    ecdsa_key_name := keyName
    ledger_id := ledgerId
    minimum_withdrawal_amount := minimumWithdrawal
    solana_last_known_signature := none
    solana_signature_ranges := []
    solana_signatures := []
    invalid_events := []
    accepted_events := []
    minted_events := []
    http_request_counter := 0 }

/-- States reachable from an `Init` event by applying non-`Init` events;
an application that would trap is not a transition. -/
inductive Reachable : State → Prop where
  | init (ca isig kn : String) (lid : PrincipalBytes) (mwa : Nat) :
      Reachable (initState ca isig kn lid mwa)
  | step {s s₂ : State} (e : EventType) (happly : applyStateTransition s e = some s₂)
      (h : Reachable s) : Reachable s₂

/-! ## Deposit pipeline (src/minter/src/deposit.rs) -/

/-- Outcome of `SolRpcClient::get_signatures_for_address` as seen by the
deposit task: a list of signature strings, or an RPC error. -/
inductive RpcSignaturesResult where
  | ok (signatures : List String)
  | err (error : String)
deriving DecidableEq, Repr

/-- `process_new_solana_signature_range` from `deposit.rs`: records
`LastKnownSolanaSignature` and then `NewSolanaSignatureRange`, each via
`process_event`. -/
def processNewSolanaSignatureRange (s : State) (log : List EventType)
    (newestSignature untilSignature : String) : Option (State × List EventType) :=
  match processEvent s log (.lastKnownSolanaSignature newestSignature) with
  | none => none
  | some (s₂, log₂) =>
    processEvent s₂ log₂
      (.newSolanaSignatureRange (SolanaSignatureRange.new newestSignature untilSignature))

/-- `get_latest_signature` from `deposit.rs` (Task A), given the RPC
response: exactly one returned signature triggers
`process_new_solana_signature_range`; an empty result, more than one
entry, or an error leaves the state untouched. -/
def getLatestSignature (s : State) (log : List EventType)
    (response : RpcSignaturesResult) : Option (State × List EventType) :=
  let untilSignature := s.getSolanaLastKnownSignature
  match response with
  | .ok [] => some (s, log)
  | .ok [sig] => processNewSolanaSignatureRange s log sig untilSignature
  | .ok (_ :: _ :: _) => some (s, log)
  | .err _ => some (s, log)

/-- `process_retry_solana_signature_range` from `deposit.rs`: on a
mid-walk RPC failure it emits `RetrySolanaSignatureRange` whose
`failed_sub_range` is always `Some(SolanaSignatureRange::new(before_cursor,
until))` — a fresh range with zero retries. -/
def processRetrySolanaSignatureRange (s : State) (log : List EventType)
    (range : SolanaSignatureRange) (beforeSignature untilSignature : String)
    (errorMsg : String) : Option (State × List EventType) :=
  processEvent s log
    (.retrySolanaSignatureRange range
      (some (SolanaSignatureRange.new beforeSignature untilSignature)) errorMsg)

/-! ## Deposit payload decoding (src/minter/src/events/mod.rs,
`impl From<(&str, &str, &str)> for ReceivedSolEvent`)

The base64 layer is the standard alphabet of the `base64` crate;
`decode ∘ encode = id` there, so the codec is embedded at the level of
the decoded byte string. -/

/-- Little-endian value of a byte list (`value |= bytes[i] << (i*8)`;
the source bytes are `u8`, so or-ing and adding agree). -/
def leVal : List Nat → Nat
  | [] => 0
  | b :: t => b + 256 * leVal t

/-- Little-endian byte string of a value, `width` bytes. -/
def toLEBytes : Nat → Nat → List Nat
  | 0, _ => []
  | width + 1, n => n % 256 :: toLEBytes width (n / 256)

/-- The byte-level decoding step of `From<(&str, &str, &str)> for
ReceivedSolEvent`: the last 8 bytes are a little-endian u64 amount, bytes
`[12..len-8)` feed `Principal::from_bytes` (raw binary form, at most 29
bytes); out-of-range slices and oversized principals panic (`none`). -/
def decodeDepositPayload (bytes : List Nat) : Option (PrincipalBytes × Nat) :=
  if bytes.length < 20 then none
  else
    let amountBytes := bytes.drop (bytes.length - 8)
    let addressBytes := (bytes.take (bytes.length - 8)).drop 12
    if addressBytes.length > 29 then none
    else some (addressBytes, leVal amountBytes)

/-- A deposit payload laid out per the spec (§4.4): a 12-byte
discriminator area, the destination principal, and a little-endian u64
amount. -/
def encodeDepositPayload (principal : PrincipalBytes) (amount : Nat) : List Nat :=
  List.replicate 12 0 ++ principal ++ toLEBytes 8 amount

/-! ## Principal textual form (`candid::Principal::to_text`)

Needed to compare the decoded principal with the spec's reading of the
payload: CRC-32 of the raw bytes, prepended, base32-encoded (RFC 4648
lowercase, no padding) and hyphenated in groups of five. -/

/-- One bit step of the reflected CRC-32 (polynomial `0xEDB88320`). -/
def crc32Round (c : Nat) : Nat :=
  if c % 2 = 1 then (c / 2) ^^^ 0xEDB88320 else c / 2

/-- Eight CRC-32 bit steps. -/
def crc32Byte (c b : Nat) : Nat :=
  (List.range 8).foldl (fun acc _ => crc32Round acc) (c ^^^ b)

/-- CRC-32 (IEEE) of a byte list. -/
def crc32 (bytes : List Nat) : Nat :=
  (bytes.foldl crc32Byte 0xFFFFFFFF) ^^^ 0xFFFFFFFF

/-- Big-endian 4-byte representation of a 32-bit value. -/
def beBytes4 (n : Nat) : List Nat :=
  [n / 2 ^ 24 % 256, n / 2 ^ 16 % 256, n / 2 ^ 8 % 256, n % 256]

/-- The eight bits of a byte, most significant first. -/
def byteBits (b : Nat) : List Bool :=
  [b / 128 % 2 = 1, b / 64 % 2 = 1, b / 32 % 2 = 1, b / 16 % 2 = 1,
   b / 8 % 2 = 1, b / 4 % 2 = 1, b / 2 % 2 = 1, b % 2 = 1]

/-- The RFC 4648 base32 alphabet, lowercase. -/
def base32AlphabetChars : List Char :=
  ['a', 'b', 'c', 'd', 'e', 'f', 'g', 'h', 'i', 'j', 'k', 'l', 'm', 'n', 'o', 'p',
   'q', 'r', 's', 't', 'u', 'v', 'w', 'x', 'y', 'z', '2', '3', '4', '5', '6', '7']

/-- Character for a 5-bit group. -/
def base32Char (i : Nat) : Char :=
  base32AlphabetChars.getD i 'a'

/-- Value of up to five bits, most significant first, zero-padded on the
right. -/
def fiveBitVal (bits : List Bool) : Nat :=
  ((bits.take 5).foldl (fun acc b => 2 * acc + (if b then 1 else 0)) 0) *
    2 ^ (5 - (bits.take 5).length)

/-- Split a bit list into base32 characters (fuel = list length). -/
def base32Chunks : Nat → List Bool → List Char
  | 0, _ => []
  | _, [] => []
  | fuel + 1, bits => base32Char (fiveBitVal bits) :: base32Chunks fuel (bits.drop 5)

/-- Base32 encoding (no padding) of a byte list. -/
def base32Encode (bytes : List Nat) : List Char :=
  let bits := bytes.flatMap byteBits
  base32Chunks bits.length bits

/-- Insert a dash after every five characters (fuel = list length). -/
def hyphenate : Nat → List Char → List Char
  | 0, _ => []
  | _, [] => []
  | fuel + 1, l =>
    if l.length ≤ 5 then l
    else l.take 5 ++ '-' :: hyphenate fuel (l.drop 5)

/-- `candid::Principal::to_text` over the raw bytes: base32 of
(CRC-32 ‖ bytes), hyphen-grouped in fives. -/
def principalToText (raw : PrincipalBytes) : String :=
  let chars := base32Encode (beBytes4 (crc32 raw) ++ raw)
  String.mk (hyphenate chars.length chars)

/-- The spec's reading of the deposit payload's address area: the UTF-8
text between the discriminator and the amount (ASCII in every scenario
the spec states). -/
def depositPayloadAddressText (bytes : List Nat) : String :=
  String.mk (((bytes.take (bytes.length - 8)).drop 12).map Char.ofNat)

/-! ## Decimal rendering (`candid::Nat` Display)

`candid::Nat`'s `Display` groups the decimal digits in threes with
underscores; `withdraw.rs` feeds `self.amount.to_string()` into the
coupon message. -/

/-- Decimal digit character. -/
def digitChar (d : Nat) : Char :=
  Char.ofNat (48 + d)

/-- Decimal digits of a number, most significant first (fuel-based so the
definition reduces). -/
def decDigitsAux : Nat → Nat → List Char
  | 0, _ => []
  | fuel + 1, n =>
    if n < 10 then [digitChar n]
    else decDigitsAux fuel (n / 10) ++ [digitChar (n % 10)]

/-- Decimal digits of a number, most significant first. -/
def decDigits (n : Nat) : List Char :=
  decDigitsAux (n + 1) n

/-- Plain decimal string of a number. -/
def decimalString (n : Nat) : String :=
  String.mk (decDigits n)

/-- Group a reversed digit list in threes separated by underscores. -/
def group3Rev : Nat → List Char → List Char
  | 0, _ => []
  | _, [] => []
  | fuel + 1, l =>
    if l.length ≤ 3 then l
    else l.take 3 ++ '_' :: group3Rev fuel (l.drop 3)

/-- `candid::Nat`'s `Display`: decimal digits with an underscore between
each group of three. -/
def natDisplayGrouped (n : Nat) : String :=
  String.mk (group3Rev (decDigits n).reverse.length (decDigits n).reverse).reverse

/-! ## Withdrawal pipeline (src/minter/src/withdraw.rs) -/

/-- `CouponError` from `withdraw.rs`. -/
inductive CouponError where
  | hexDecodingError
  | deserializationError
  | recoveryError
  | parityRecoveryFailed (signature pubkey : String)
deriving DecidableEq, Repr

/-- `TransferFromError` of the ICRC-2 ledger (external collaborator). -/
inductive TransferFromError where
  | badFee (expected_fee : Nat)
  | badBurn (min_burn_amount : Nat)
  | insufficientFunds (balance : Nat)
  | insufficientAllowance (allowance : Nat)
  | tooOld
  | createdInFuture (ledger_time : Nat)
  | duplicate (duplicate_of : Nat)
  | temporarilyUnavailable
  | genericError (error_code : Nat) (message : String)
deriving DecidableEq, Repr

/-- `WithdrawError` from `withdraw.rs` — note there is no below-minimum
variant. -/
inductive WithdrawError where
  | burningGSolFailed (error : TransferFromError)
  | sendingMessageToLedgerFailed (ledger_id : String) (code : Int) (msg : String)
  | signingWithEcdsaFailed (burn_id : Nat) (code : Int) (msg : String)
  | couponError (burn_id : Nat) (error : CouponError)
  | unknownBurnId (burn_id : Nat)
  | redeemedEventError (burn_id : Nat)
deriving DecidableEq, Repr

/-- `Coupon` from `withdraw.rs`. -/
structure Coupon where
  message : String
  message_hash : String
  signature_hex : String
  icp_public_key_hex : String
  recovery_id : Option Nat
deriving DecidableEq, Repr

/-- Modelled from the spec: the Withdrawal Event record (§3) used by
`withdraw.rs` — its declaration (with `amount: Nat`, optional burn
fields, optional coupon and the `update_after_*`/getter methods) is not
among the provided sources, only its callers are. Lifecycle
Created → Burned (burn fields set) → Redeemed (coupon set). -/
structure WithdrawalEvent where
  id : Nat
  from_icp_address : PrincipalBytes
  to_sol_address : String
  amount : Nat
  burn_timestamp : Option Nat
  icp_burn_block_index : Option Nat
  coupon : Option Coupon
deriving DecidableEq, Repr

/-- Modelled from the spec: `WithdrawalEvent::new` builds a Created-stage
event with burn fields and coupon unset. -/
def WithdrawalEvent.new (id : Nat) (from_addr : PrincipalBytes)
    (to_addr : String) (amount : Nat) : WithdrawalEvent :=
  ⟨id, from_addr, to_addr, amount, none, none, none⟩

/-- Modelled from the spec: `update_after_burn` sets the burn timestamp
and the ledger burn block index. -/
def WithdrawalEvent.updateAfterBurn (e : WithdrawalEvent) (ts blockIndex : Nat) :
    WithdrawalEvent :=
  { e with burn_timestamp := some ts, icp_burn_block_index := some blockIndex }

/-- Modelled from the spec: `update_after_redeem` attaches the coupon. -/
def WithdrawalEvent.updateAfterRedeem (e : WithdrawalEvent) (c : Coupon) :
    WithdrawalEvent :=
  { e with coupon := some c }

/-! ### Coupon message canonicalization (`WithdrawalEventWithoutCbor`)

`sign_with_ecdsa` serializes `WithdrawalEventWithoutCbor` with
`serde_json::to_string`: compact output, fields in declaration order,
`Principal` in textual form (human-readable serializer), `u64` fields as
JSON numbers, and the amount pre-rendered by `candid::Nat`'s Display. -/

/-- serde_json's escape of one character inside a JSON string:
quote, backslash, the short control escapes, `\u00XX` (lowercase hex)
for the remaining control characters, everything else verbatim. -/
def jsonEscapeChar (c : Char) : List Char :=
  if c = '"' then ['\\', '"']
  else if c = '\\' then ['\\', '\\']
  else if c.toNat = 8 then ['\\', 'b']
  else if c.toNat = 9 then ['\\', 't']
  else if c.toNat = 10 then ['\\', 'n']
  else if c.toNat = 12 then ['\\', 'f']
  else if c.toNat = 13 then ['\\', 'r']
  else if c.toNat < 32 then
    ['\\', 'u', '0', '0', "0123456789abcdef".toList.getD (c.toNat / 16) '0',
     "0123456789abcdef".toList.getD (c.toNat % 16) '0']
  else [c]

/-- serde_json string escaping. -/
def jsonEscape (s : String) : String :=
  String.mk ((s.toList.map jsonEscapeChar).flatten)

/-- A character serde_json escaping leaves alone. -/
def JsonPlain (c : Char) : Prop :=
  c ≠ '"' ∧ c ≠ '\\' ∧ 32 ≤ c.toNat

instance (c : Char) : Decidable (JsonPlain c) := by
  unfold JsonPlain; infer_instance

/-- The coupon message: `serde_json::to_string(&WithdrawalEventWithoutCbor
\x7b from_icp_address, to_sol_address, amount: self.amount.to_string(),
burn_id, burn_timestamp: ....unwrap(), icp_burn_block_index: ....unwrap() \x7d)`;
the `unwrap`s trap (`none`) while the burn fields are unset. -/
def serializeCouponMessage (e : WithdrawalEvent) : Option String :=
  match e.burn_timestamp, e.icp_burn_block_index with
  | some ts, some blockIndex =>
    some ("\x7b\"from_icp_address\":\"" ++ jsonEscape (principalToText e.from_icp_address) ++
      "\",\"to_sol_address\":\"" ++ jsonEscape e.to_sol_address ++
      "\",\"amount\":\"" ++ jsonEscape (natDisplayGrouped e.amount) ++
      "\",\"burn_id\":" ++ decimalString e.id ++
      ",\"burn_timestamp\":" ++ decimalString ts ++
      ",\"icp_burn_block_index\":" ++ decimalString blockIndex ++ "\x7d")
  | _, _ => none

/-! ### Burn and withdraw (src/minter/src/withdraw.rs) -/

/-- An `icrc2_transfer_from` call issued to the ledger (the arguments
`burn_gsol` builds: from the caller, to the minter itself, with the
requested amount and the burn id as memo). -/
structure LedgerTransferFromCall where
  from_icp_address : PrincipalBytes
  amount : Nat
  memo_burn_id : Nat
deriving DecidableEq, Repr

/-- The ledger's answer to `transfer_from`: a block index, a typed
ledger error, or a transport failure. -/
inductive LedgerTransferFromResult where
  | ok (block_index : Nat)
  | ledgerErr (error : TransferFromError)
  | transportErr (code : Int) (msg : String)
deriving DecidableEq, Repr

/-- Events the withdrawal pipeline records (`WithdrawalBurnedEvent` /
`WithdrawalRedeemedEvent`; the fail reason is kept as the error value
rather than its Display string). -/
inductive WithdrawalLogEvent where
  | burned (event_source : WithdrawalEvent) (fail_reason : Option WithdrawError)
  | redeemed (event_source : WithdrawalEvent)
deriving DecidableEq, Repr

/-- Result of a withdrawal step: the ledger calls issued, the events
recorded, and the returned value. -/
structure WithdrawOutcome (α : Type) where
  ledger_calls : List LedgerTransferFromCall
  recorded : List WithdrawalLogEvent
  result : Except WithdrawError α
deriving Repr

/-- `burn_gsol` from `withdraw.rs`: builds the withdrawal event with the
next burn id, then unconditionally calls the ledger's `transfer_from`
(no check of any kind precedes the call); success records a
`WithdrawalBurnedEvent`, failure returns the typed error with nothing
recorded. -/
def burnGsol (burnId : Nat) (from_addr : PrincipalBytes) (to_addr : String)
    (amount : Nat) (now : Nat) (ledgerId : String)
    (response : LedgerTransferFromResult) : WithdrawOutcome WithdrawalEvent :=
  let event := WithdrawalEvent.new burnId from_addr to_addr amount
  let call : LedgerTransferFromCall := ⟨from_addr, amount, burnId⟩
  match response with
  | .ok blockIndex =>
    let event₂ := event.updateAfterBurn now blockIndex
    ⟨[call], [.burned event₂ none], .ok event₂⟩
  | .ledgerErr err => ⟨[call], [], .error (.burningGSolFailed err)⟩
  | .transportErr code msg =>
    ⟨[call], [], .error (.sendingMessageToLedgerFailed ledgerId code msg)⟩

/-- `generate_coupon` from `withdraw.rs`, with `event.to_coupon()` — the
canonicalize/SHA-256/threshold-sign/recover pipeline, whose signature
comes from the external ECDSA oracle — supplied as a function argument:
on success the coupon is attached, a `WithdrawalRedeemedEvent` is
recorded and the coupon returned; on failure a `WithdrawalBurnedEvent`
with the fail reason is recorded and the error propagated. -/
def generateCoupon (event : WithdrawalEvent)
    (toCoupon : WithdrawalEvent → Except WithdrawError Coupon) :
    List WithdrawalLogEvent × Except WithdrawError Coupon :=
  match toCoupon event with
  | .ok c =>
    let event₂ := event.updateAfterRedeem c
    ([.redeemed event₂], .ok c)
  | .error err => ([.burned event (some err)], .error err)

/-- `withdraw_gsol` from `withdraw.rs`: acquire the per-principal guard
(trap — `none` — when the caller is already withdrawing), then
`burn_gsol`, then `generate_coupon`. The state's
`minimum_withdrawal_amount` is never consulted. -/
def withdrawGsol (s : State) (callerLocked : Bool) (burnId : Nat)
    (from_addr : PrincipalBytes) (to_addr : String) (amount : Nat) (now : Nat)
    (response : LedgerTransferFromResult)
    (toCoupon : WithdrawalEvent → Except WithdrawError Coupon) :
    Option (WithdrawOutcome Coupon) :=
  if callerLocked then none
  else
    let ledgerId := principalToText s.ledger_id
    let burn := burnGsol burnId from_addr to_addr amount now ledgerId response
    match burn.result with
    | .error err => some ⟨burn.ledger_calls, burn.recorded, .error err⟩
    | .ok event =>
      let gen := generateCoupon event toCoupon
      some ⟨burn.ledger_calls, burn.recorded ++ gen.1, gen.2⟩

/-- `get_coupon` from `withdraw.rs`: guard, then look the burn id up in
the redeemed map (returning its stored coupon, or
`RedeemedEventError` when the stored event holds none); otherwise in the
burned map (re-running `generate_coupon`); otherwise `UnknownBurnId`. -/
def getCoupon (redeemedEvents burnedEvents : List (Nat × WithdrawalEvent))
    (callerLocked : Bool) (burnId : Nat)
    (toCoupon : WithdrawalEvent → Except WithdrawError Coupon) :
    Option (List WithdrawalLogEvent × Except WithdrawError Coupon) :=
  if callerLocked then none
  else
    match alookup burnId redeemedEvents with
    | some redeemedEvent =>
      match redeemedEvent.coupon with
      | some c => some ([], .ok c)
      | none => some ([], .error (.redeemedEventError burnId))
    | none =>
      match alookup burnId burnedEvents with
      | some burnedEvent => some (generateCoupon burnedEvent toCoupon)
      | none => some ([], .error (.unknownBurnId burnId))

/-! ## Concrete instances used by the theorems below -/

/-- A baseline initialized state (scenario 1 of the spec). -/
def baseState : State :=
  initState "Prog111" "SIG0" "dfx_test_key" [4] 1

/-- A deposit record for source signature `SIG1-a` (scenario 3/4). -/
def depSig1a : ReceivedSolEvent :=
  ⟨"SolFrom", [4], 1000, "SIG1-a", some 42, 0⟩

/-- `baseState` with `SIG1-a` accepted and nothing pending. -/
def acceptedOnlyState : State :=
  { baseState with accepted_events := [("SIG1-a", depSig1a)] }

/-- A pending signature record for `SIG`. -/
def sigPending : SolanaSignature :=
  ⟨"SIG", 0⟩

/-- A deposit record for source signature `SIG`. -/
def depSig : ReceivedSolEvent :=
  ⟨"SolFrom", [4], 1000, "SIG", none, 0⟩

/-- The state reached from `baseState` by applying
`SolanaSignature SIG`, then `AcceptedEvent SIG`, then `SolanaSignature
SIG` again: `SIG` is simultaneously pending and accepted. -/
def overlapState : State :=
  { baseState with
    solana_signatures := [("SIG", sigPending)]
    accepted_events := [("SIG", depSig)] }

/-- `baseState` with one signature range `(B, U)` that has already
failed five times. -/
def retryState : State :=
  { baseState with solana_signature_ranges := [("B-U", ⟨"B", "U", 5⟩)] }

/-- The raw bytes of the ASCII text `2vxsx-fae` (the anonymous
principal's textual form). -/
def anonymousTextBytes : List Nat :=
  "2vxsx-fae".toList.map Char.toNat

/-- A deposit payload carrying the destination principal as text
`2vxsx-fae` and the amount 1000 (scenario 3). -/
def payloadScenario3 : List Nat :=
  encodeDepositPayload anonymousTextBytes 1000

/-- A placeholder coupon for oracle outcomes. -/
def sampleCoupon : Coupon :=
  ⟨"msg", "hash", "sig", "key", some 0⟩

/-- The withdrawal event `withdraw("SolAddr...X", 500)` produces after a
successful burn (scenario 5), before redemption. -/
def burnedEvent500 : WithdrawalEvent :=
  ⟨0, [4], "SolAddrX", 500, some 1700000000000000000, some 7, none⟩

/-- A redeemed withdrawal event holding `sampleCoupon`. -/
def redeemedEvent500 : WithdrawalEvent :=
  { burnedEvent500 with coupon := some sampleCoupon }

/-! ## Claim theorems -/

/-- C1: with `minimum_withdrawal_amount = 1`, `withdraw_gsol` for amount
0 does not reject: it issues the ledger `transfer_from` call with amount
0 and, the burn succeeding, records a burned and a redeemed event and
returns a coupon. No below-minimum branch (and no such error variant)
exists. -/
theorem withdraw_below_minimum_calls_ledger :
    0 < baseState.minimum_withdrawal_amount ∧
    withdrawGsol baseState false 0 [4] "SolAddrX" 0 1700000000000000000 (.ok 7)
        (fun _ => .ok sampleCoupon) =
      some ⟨[⟨[4], 0, 0⟩],
        [.burned ⟨0, [4], "SolAddrX", 0, some 1700000000000000000, some 7, none⟩ none,
         .redeemed ⟨0, [4], "SolAddrX", 0, some 1700000000000000000, some 7,
           some sampleCoupon⟩],
        .ok sampleCoupon⟩ := by
  constructor
  · decide
  · rfl

/-- C2: in a state whose accepted map holds `SIG1-a` and whose minted
map does not, applying `MintedEvent` traps on the inverted assertion in
`record_minted_event` instead of moving the deposit to the minted map. -/
theorem minted_event_application_traps :
    containsKey "SIG1-a" acceptedOnlyState.accepted_events = true ∧
    containsKey "SIG1-a" acceptedOnlyState.minted_events = false ∧
    applyStateTransition acceptedOnlyState (.mintedEvent depSig1a) = none := by
  refine ⟨by decide, by decide, by decide⟩

/-- C6: in a state whose accepted map holds `SIG1-a` (and whose pending
map, as after any first `AcceptedEvent`, no longer does), a further
`AcceptedEvent` for the same signature traps in
`record_accepted_event`'s removal of the pending signature instead of
incrementing the retry count. -/
theorem accepted_event_retry_traps :
    containsKey "SIG1-a" acceptedOnlyState.accepted_events = true ∧
    containsKey "SIG1-a" acceptedOnlyState.solana_signatures = false ∧
    applyStateTransition acceptedOnlyState
      (.acceptedEvent depSig1a (some "minting gSOL failed")) = none := by
  refine ⟨by decide, by decide, by decide⟩

/-- C8: a mid-walk failure over the range `(B, U)` at cursor `C`
replaces the stored range (5 retries so far) with the fresh sub-range
`(C, U)` whose retry count is 0 — reset, not incremented. -/
theorem retry_range_resets_retry_count :
    alookup "B-U" retryState.solana_signature_ranges = some ⟨"B", "U", 5⟩ ∧
    processRetrySolanaSignatureRange retryState [] ⟨"B", "U", 5⟩ "C" "U" "rpc failed" =
      some ({ retryState with
          solana_signature_ranges := [("C-U", ⟨"C", "U", 0⟩)] },
        [.retrySolanaSignatureRange ⟨"B", "U", 5⟩ (some ⟨"C", "U", 0⟩) "rpc failed"]) ∧
    (SolanaSignatureRange.new "C" "U").retries = 0 := by
  refine ⟨by decide, by decide, rfl⟩

/-- C10: `process_event` applies the state transition before appending
to the log, so an event whose application traps is never persisted. -/
theorem process_event_trap_appends_nothing (s : State) (log : List EventType)
    (e : EventType) (h : applyStateTransition s e = none) :
    processEvent s log e = none := by
  unfold processEvent
  rw [h]

/-- C10 witness: re-applying `Init` always traps and persists nothing. -/
theorem process_event_trap_appends_nothing_witness :
    processEvent baseState [] .initEvent = none :=
  process_event_trap_appends_nothing baseState [] .initEvent rfl

/-- C9: Task A given the RPC result: exactly one returned signature
records `LastKnownSignature(sig)` and then `NewRange(before = sig,
until = cursor)` (the fresh-range key not colliding with a stored one);
an empty result, more than one entry, or an RPC error leaves state and
log untouched. -/
theorem get_latest_signature_cases (s : State) (log : List EventType) :
    (∀ sig,
      containsKey (rangeKey sig s.getSolanaLastKnownSignature)
          s.solana_signature_ranges = false →
      getLatestSignature s log (.ok [sig]) =
        some ({ s with
            solana_last_known_signature := some sig,
            solana_signature_ranges :=
              insertKey (rangeKey sig s.getSolanaLastKnownSignature)
                (SolanaSignatureRange.new sig s.getSolanaLastKnownSignature)
                s.solana_signature_ranges },
          log ++ [.lastKnownSolanaSignature sig,
            .newSolanaSignatureRange
              (SolanaSignatureRange.new sig s.getSolanaLastKnownSignature)])) ∧
    getLatestSignature s log (.ok []) = some (s, log) ∧
    (∀ a b rest, getLatestSignature s log (.ok (a :: b :: rest)) = some (s, log)) ∧
    (∀ msg, getLatestSignature s log (.err msg) = some (s, log)) := by
  refine ⟨?_, rfl, fun a b rest => rfl, fun msg => rfl⟩
  intro sig h
  simp only [getLatestSignature, processNewSolanaSignatureRange, processEvent,
    applyStateTransition, State.recordSolanaLastKnownSignature,
    State.recordSolanaSignatureRange, State.getSolanaLastKnownSignature,
    SolanaSignatureRange.new]
  simp only [State.getSolanaLastKnownSignature] at h
  simp [h, List.append_assoc]

/-- C9 witness: scenario 1 — from the freshly initialized state with
cursor `SIG0`, the singleton answer `SIG1` yields the range
`(SIG1, SIG0)` and cursor `SIG1`; the empty answer is a no-op. -/
theorem get_latest_signature_cases_witness :
    getLatestSignature baseState [] (.ok ["SIG1"]) =
      some ({ baseState with
          solana_last_known_signature := some "SIG1",
          solana_signature_ranges :=
            [("SIG1-SIG0", SolanaSignatureRange.new "SIG1" "SIG0")] },
        [.lastKnownSolanaSignature "SIG1",
         .newSolanaSignatureRange (SolanaSignatureRange.new "SIG1" "SIG0")]) ∧
    getLatestSignature baseState [] (.ok []) = some (baseState, []) := by
  constructor
  · have h := (get_latest_signature_cases baseState []).1 "SIG1" (by decide)
    simpa [baseState, initState, State.getSolanaLastKnownSignature, rangeKey,
      insertKey, eraseKey] using h
  · exact (get_latest_signature_cases baseState []).2.1

/-- In every reachable state the minted and invalid maps are empty: the
inverted assertions in `record_minted_event` and `record_invalid_event`
trap on any first insertion, so no non-trapping transition ever
populates them. -/
theorem reachable_minted_invalid_empty {s : State} (h : Reachable s) :
    s.minted_events = [] ∧ s.invalid_events = [] := by
  induction h with
  | init ca isig kn lid mwa => exact ⟨rfl, rfl⟩
  | step e happly h ih =>
    obtain ⟨hm, hi⟩ := ih
    cases e with
    | initEvent => exact Option.noConfusion happly
    | upgrade =>
      simp only [applyStateTransition, Option.some.injEq] at happly
      subst happly; exact ⟨hm, hi⟩
    | lastKnownSolanaSignature sig =>
      simp only [applyStateTransition, State.recordSolanaLastKnownSignature,
        Option.some.injEq] at happly
      subst happly; exact ⟨hm, hi⟩
    | newSolanaSignatureRange range =>
      simp only [applyStateTransition, State.recordSolanaSignatureRange] at happly
      split at happly
      · exact Option.noConfusion happly
      · simp only [Option.some.injEq] at happly
        subst happly; exact ⟨hm, hi⟩
    | removeSolanaSignatureRange range =>
      simp only [applyStateTransition, State.removeSolanaSignatureRange] at happly
      split at happly
      · simp only [Option.some.injEq] at happly
        subst happly; exact ⟨hm, hi⟩
      · exact Option.noConfusion happly
    | retrySolanaSignatureRange range sub reason =>
      simp only [applyStateTransition, State.retrySolanaSignatureRange] at happly
      split at happly
      · exact Option.noConfusion happly
      · split at happly
        · simp only [State.recordSolanaSignatureRange] at happly
          split at happly
          · exact Option.noConfusion happly
          · simp only [Option.some.injEq] at happly
            subst happly; exact ⟨hm, hi⟩
        · simp only [Option.some.injEq] at happly
          subst happly; exact ⟨hm, hi⟩
    | solanaSignature sig reason =>
      simp only [applyStateTransition, State.recordSolanaSignature,
        Option.some.injEq] at happly
      split at happly <;> (subst happly; exact ⟨hm, hi⟩)
    | invalidEvent sig reason =>
      simp only [applyStateTransition, State.recordInvalidEvent] at happly
      split at happly
      · exact Option.noConfusion happly
      · rw [hi] at happly
        simp [containsKey, alookup] at happly
    | acceptedEvent dep reason =>
      simp only [applyStateTransition, State.recordAcceptedEvent] at happly
      split at happly
      · exact Option.noConfusion happly
      · split at happly <;>
          (simp only [Option.some.injEq] at happly; subst happly; exact ⟨hm, hi⟩)
    | mintedEvent dep =>
      simp only [applyStateTransition, State.recordMintedEvent] at happly
      split at happly
      · exact Option.noConfusion happly
      · rw [hm] at happly
        simp [containsKey, alookup] at happly

/-- C5 counterexample: from an `Init` state the non-trapping sequence
`SolanaSignature SIG`, `AcceptedEvent SIG`, `SolanaSignature SIG`
reaches a state in which `SIG` is a key of both the pending map and the
accepted map — re-recording a signature never consults the other maps. -/
theorem pending_accepted_overlap_reachable :
    Reachable overlapState ∧
    containsKey "SIG" overlapState.solana_signatures = true ∧
    containsKey "SIG" overlapState.accepted_events = true := by
  refine ⟨?_, by decide, by decide⟩
  have h0 : Reachable baseState := Reachable.init "Prog111" "SIG0" "dfx_test_key" [4] 1
  have h1 : Reachable { baseState with solana_signatures := [("SIG", sigPending)] } :=
    Reachable.step (.solanaSignature sigPending none) (by decide) h0
  have h2 : Reachable { baseState with accepted_events := [("SIG", depSig)] } :=
    Reachable.step (.acceptedEvent depSig none) (by decide) h1
  exact Reachable.step (.solanaSignature sigPending none) (by decide) h2

/-- C5 amended: in every reachable state each source signature is a key
of at most one of the accepted, minted and invalid maps (the pending map
can overlap with the accepted map, as the counterexample shows). -/
theorem reachable_non_pending_maps_disjoint (s : State) (h : Reachable s)
    (sig : String) :
    ¬(containsKey sig s.accepted_events = true ∧
      containsKey sig s.minted_events = true) ∧
    ¬(containsKey sig s.accepted_events = true ∧
      containsKey sig s.invalid_events = true) ∧
    ¬(containsKey sig s.minted_events = true ∧
      containsKey sig s.invalid_events = true) := by
  obtain ⟨hm, hi⟩ := reachable_minted_invalid_empty h
  rw [hm, hi]
  simp [containsKey, alookup]

/-- C5 witness: the disjointness instantiated at an `Init` state. -/
theorem reachable_non_pending_maps_disjoint_witness :
    ¬(containsKey "SIG1-a" baseState.accepted_events = true ∧
      containsKey "SIG1-a" baseState.minted_events = true) ∧
    ¬(containsKey "SIG1-a" baseState.accepted_events = true ∧
      containsKey "SIG1-a" baseState.invalid_events = true) ∧
    ¬(containsKey "SIG1-a" baseState.minted_events = true ∧
      containsKey "SIG1-a" baseState.invalid_events = true) :=
  reachable_non_pending_maps_disjoint baseState
    (Reachable.init "Prog111" "SIG0" "dfx_test_key" [4] 1) "SIG1-a"

theorem toLEBytes_length (width n : Nat) : (toLEBytes width n).length = width := by
  induction width generalizing n with
  | zero => rfl
  | succ w ih => simp [toLEBytes, ih]

theorem leVal_toLEBytes (width n : Nat) : leVal (toLEBytes width n) = n % 256 ^ width := by
  induction width generalizing n with
  | zero => simp [toLEBytes, leVal, Nat.mod_one]
  | succ w ih =>
    rw [toLEBytes, leVal, ih, pow_succ, mul_comm (256 ^ w) 256, Nat.mod_mul]

set_option maxRecDepth 400000 in
/-- C4 counterexample: the payload embedding the TEXT `2vxsx-fae` (the
anonymous principal's textual form) decodes — via
`Principal::from_bytes` on the raw slice — to the principal whose raw
bytes are the ASCII codes of that text, not to the anonymous principal
`[4]`: its textual form differs from the embedded string, so neither the
claimed decoding nor the text-based round-trip holds. -/
theorem deposit_decode_binary_principal_counterexample :
    decodeDepositPayload payloadScenario3 = some (anonymousTextBytes, 1000) ∧
    depositPayloadAddressText payloadScenario3 = "2vxsx-fae" ∧
    principalToText [4] = "2vxsx-fae" ∧
    principalToText anonymousTextBytes ≠ "2vxsx-fae" := by
  refine ⟨by decide, by decide, ?_, ?_⟩
  · decide
  · decide

/-- C4 amended: decoding reads the raw binary principal, so the
layout-level round-trip holds for the raw bytes (at most 29, the
`Principal` bound) and the amount (below 2^64) — the amount exactly as
claimed, the principal by binary rather than textual form. -/
theorem deposit_payload_roundtrip (praw : List Nat) (amount : Nat)
    (hlen : praw.length ≤ 29) (hamt : amount < 2 ^ 64) :
    decodeDepositPayload (encodeDepositPayload praw amount) = some (praw, amount) := by
  have hfront : (List.replicate 12 (0 : Nat) ++ praw).length = 12 + praw.length := by
    simp; omega
  have htot : (encodeDepositPayload praw amount).length = 12 + praw.length + 8 := by
    simp [encodeDepositPayload, toLEBytes_length]; omega
  have hsub : 12 + praw.length + 8 - 8 = 12 + praw.length := by omega
  have hdrop : (encodeDepositPayload praw amount).drop (12 + praw.length) =
      toLEBytes 8 amount := by
    simp only [encodeDepositPayload]
    exact List.drop_left' hfront
  have htake : ((encodeDepositPayload praw amount).take (12 + praw.length)).drop 12 =
      praw := by
    simp only [encodeDepositPayload]
    rw [List.take_left' hfront]
    exact List.drop_left' (by simp)
  have hm : amount % 256 ^ 8 = amount :=
    Nat.mod_eq_of_lt (lt_of_lt_of_eq hamt (by norm_num))
  simp only [decodeDepositPayload, htot, hsub, hdrop, htake]
  rw [if_neg (by omega), if_neg (by omega)]
  rw [leVal_toLEBytes, hm]

/-- C4 witness: the round-trip instantiated at the anonymous principal's
raw bytes and amount 1000. -/
theorem deposit_payload_roundtrip_witness :
    decodeDepositPayload (encodeDepositPayload [4] 1000) = some ([4], 1000) :=
  deposit_payload_roundtrip [4] 1000 (by decide) (by decide)

theorem jsonEscapeChar_of_plain {c : Char} (h : JsonPlain c) : jsonEscapeChar c = [c] := by
  obtain ⟨h1, h2, h3⟩ := h
  unfold jsonEscapeChar
  rw [if_neg h1, if_neg h2, if_neg (by omega), if_neg (by omega), if_neg (by omega),
    if_neg (by omega), if_neg (by omega), if_neg (by omega)]

theorem flatten_escape_of_plain (l : List Char) (h : ∀ c ∈ l, JsonPlain c) :
    (l.map jsonEscapeChar).flatten = l := by
  induction l with
  | nil => rfl
  | cons c t ih =>
    simp only [List.map_cons, List.flatten_cons,
      jsonEscapeChar_of_plain (h c (List.mem_cons_self c t))]
    simp only [List.singleton_append, List.cons.injEq, true_and]
    exact ih (fun x hx => h x (List.mem_cons_of_mem c hx))

theorem jsonEscape_of_plain {s : String} (h : ∀ c ∈ s.toList, JsonPlain c) :
    jsonEscape s = s := by
  cases s with
  | mk data => exact congrArg String.mk (flatten_escape_of_plain data h)

theorem base32Char_plain (i : Nat) : JsonPlain (base32Char i) := by
  by_cases h : i < 32
  · exact (by decide : ∀ j < 32, JsonPlain (base32Char j)) i h
  · unfold base32Char
    rw [List.getD_eq_default]
    · decide
    · have : base32AlphabetChars.length = 32 := by decide
      omega

theorem base32Chunks_chars (fuel : Nat) (bits : List Bool) :
    ∀ c ∈ base32Chunks fuel bits, ∃ i, c = base32Char i := by
  induction fuel generalizing bits with
  | zero => simp [base32Chunks]
  | succ f ih =>
    cases bits with
    | nil => simp [base32Chunks]
    | cons b t =>
      intro c hc
      simp only [base32Chunks, List.mem_cons] at hc
      rcases hc with h | h
      · exact ⟨_, h⟩
      · exact ih _ c h

theorem hyphenate_chars (fuel : Nat) (l : List Char) :
    ∀ c ∈ hyphenate fuel l, c ∈ l ∨ c = '-' := by
  induction fuel generalizing l with
  | zero => simp [hyphenate]
  | succ f ih =>
    cases l with
    | nil => simp [hyphenate]
    | cons a t =>
      intro c hc
      simp only [hyphenate] at hc
      split at hc
      · exact Or.inl hc
      · rcases List.mem_append.mp hc with h | h
        · exact Or.inl (List.take_subset 5 (a :: t) h)
        · rcases List.mem_cons.mp h with h | h
          · exact Or.inr h
          · rcases ih _ c h with h2 | h2
            · exact Or.inl (List.drop_subset 5 (a :: t) h2)
            · exact Or.inr h2

theorem principalToText_plain (p : PrincipalBytes) :
    ∀ c ∈ (principalToText p).toList, JsonPlain c := by
  intro c hc
  have hc2 : c ∈ hyphenate (base32Encode (beBytes4 (crc32 p) ++ p)).length
      (base32Encode (beBytes4 (crc32 p) ++ p)) := hc
  rcases hyphenate_chars _ _ c hc2 with h | h
  · rcases base32Chunks_chars _ _ c h with ⟨i, rfl⟩
    exact base32Char_plain i
  · subst h; decide

theorem decDigitsAux_chars (fuel n : Nat) :
    ∀ c ∈ decDigitsAux fuel n, ∃ d, d < 10 ∧ c = digitChar d := by
  induction fuel generalizing n with
  | zero => simp [decDigitsAux]
  | succ f ih =>
    intro c hc
    simp only [decDigitsAux] at hc
    split at hc
    · next hlt => simp only [List.mem_singleton] at hc; exact ⟨n, hlt, hc⟩
    · rcases List.mem_append.mp hc with h | h
      · exact ih _ c h
      · simp only [List.mem_singleton] at h
        exact ⟨n % 10, Nat.mod_lt _ (by omega), h⟩

theorem group3Rev_chars (fuel : Nat) (l : List Char) :
    ∀ c ∈ group3Rev fuel l, c ∈ l ∨ c = '_' := by
  induction fuel generalizing l with
  | zero => simp [group3Rev]
  | succ f ih =>
    cases l with
    | nil => simp [group3Rev]
    | cons a t =>
      intro c hc
      simp only [group3Rev] at hc
      split at hc
      · exact Or.inl hc
      · rcases List.mem_append.mp hc with h | h
        · exact Or.inl (List.take_subset 3 (a :: t) h)
        · rcases List.mem_cons.mp h with h | h
          · exact Or.inr h
          · rcases ih _ c h with h2 | h2
            · exact Or.inl (List.drop_subset 3 (a :: t) h2)
            · exact Or.inr h2

theorem natDisplayGrouped_plain (n : Nat) :
    ∀ c ∈ (natDisplayGrouped n).toList, JsonPlain c := by
  intro c hc
  have hc2 : c ∈ (group3Rev (decDigits n).reverse.length (decDigits n).reverse).reverse := hc
  rcases group3Rev_chars _ _ c (List.mem_reverse.mp hc2) with h | h
  · rcases decDigitsAux_chars _ _ c (List.mem_reverse.mp h) with ⟨d, hd, rfl⟩
    exact (by decide : ∀ j < 10, JsonPlain (digitChar j)) d hd
  · subst h; decide

set_option maxRecDepth 2000000 in
theorem natDisplayGrouped_small (n : Nat) (h : n < 1000) :
    natDisplayGrouped n = decimalString n :=
  (by decide : ∀ m < 1000, natDisplayGrouped m = decimalString m) n h

set_option maxRecDepth 400000 in
/-- C3 counterexample: the coupon message for a burned withdrawal of
amount 1000 carries `"amount":"1_000"` — `candid::Nat`'s underscore
grouping — not the plain decimal `"1000"` the claim requires for every
amount. -/
theorem coupon_message_grouped_amount_counterexample :
    serializeCouponMessage
        ⟨0, [4], "SolAddrX", 1000, some 1700000000000000000, some 7, none⟩ =
      some "\x7b\"from_icp_address\":\"2vxsx-fae\",\"to_sol_address\":\"SolAddrX\",\"amount\":\"1_000\",\"burn_id\":0,\"burn_timestamp\":1700000000000000000,\"icp_burn_block_index\":7\x7d" ∧
    serializeCouponMessage
        ⟨0, [4], "SolAddrX", 1000, some 1700000000000000000, some 7, none⟩ ≠
      some "\x7b\"from_icp_address\":\"2vxsx-fae\",\"to_sol_address\":\"SolAddrX\",\"amount\":\"1000\",\"burn_id\":0,\"burn_timestamp\":1700000000000000000,\"icp_burn_block_index\":7\x7d" := by
  refine ⟨by decide, by decide⟩

/-- C3 amended: for every withdrawal event with burn fields set (and a
destination address free of JSON escapes, as base58 addresses are), the
coupon message is byte-exactly the six fields in declaration order with
no whitespace, the principal textual, and the amount rendered by
`candid::Nat`'s Display — underscore-grouped decimal, which coincides
with the plain decimal string exactly for amounts below 1000. -/
theorem coupon_message_canonical_form (p : PrincipalBytes) (addr : String)
    (amount id ts blockIndex : Nat) (cpn : Option Coupon)
    (haddr : ∀ c ∈ addr.toList, JsonPlain c) :
    serializeCouponMessage ⟨id, p, addr, amount, some ts, some blockIndex, cpn⟩ =
      some ("\x7b\"from_icp_address\":\"" ++ principalToText p ++
        "\",\"to_sol_address\":\"" ++ addr ++
        "\",\"amount\":\"" ++ natDisplayGrouped amount ++
        "\",\"burn_id\":" ++ decimalString id ++
        ",\"burn_timestamp\":" ++ decimalString ts ++
        ",\"icp_burn_block_index\":" ++ decimalString blockIndex ++ "\x7d") ∧
    (amount < 1000 → natDisplayGrouped amount = decimalString amount) := by
  constructor
  · simp only [serializeCouponMessage]
    rw [jsonEscape_of_plain (principalToText_plain p), jsonEscape_of_plain haddr,
      jsonEscape_of_plain (natDisplayGrouped_plain amount)]
  · exact natDisplayGrouped_small amount

/-- C3 witness: scenario 5 — the canonical message for
`withdraw("SolAddr...X", 500)` burned at block 7. -/
theorem coupon_message_canonical_form_witness :
    serializeCouponMessage ⟨0, [4], "SolAddrX", 500, some 1700000000000000000,
        some 7, none⟩ =
      some ("\x7b\"from_icp_address\":\"" ++ principalToText [4] ++
        "\",\"to_sol_address\":\"" ++ "SolAddrX" ++
        "\",\"amount\":\"" ++ natDisplayGrouped 500 ++
        "\",\"burn_id\":" ++ decimalString 0 ++
        ",\"burn_timestamp\":" ++ decimalString 1700000000000000000 ++
        ",\"icp_burn_block_index\":" ++ decimalString 7 ++ "\x7d") ∧
    (500 < 1000 → natDisplayGrouped 500 = decimalString 500) :=
  coupon_message_canonical_form [4] "SolAddrX" 500 0 1700000000000000000 7 none
    (by decide)

/-- C7: `get_coupon` behaviour by burn id — a redeemed withdrawal
holding a coupon returns that stored coupon; a burn id only in the
burned map re-runs `generate_coupon` on the stored event (the
canonicalize/sign/recover pipeline `gen`), returning the freshly
generated coupon when generation succeeds; an unknown burn id returns
`UnknownBurnId`. -/
theorem get_coupon_cases (redeemedEvents burnedEvents : List (Nat × WithdrawalEvent))
    (burnId : Nat) (gen : WithdrawalEvent → Except WithdrawError Coupon) :
    (∀ ev c, alookup burnId redeemedEvents = some ev → ev.coupon = some c →
      getCoupon redeemedEvents burnedEvents false burnId gen = some ([], .ok c)) ∧
    (∀ ev, alookup burnId redeemedEvents = none →
      alookup burnId burnedEvents = some ev →
      getCoupon redeemedEvents burnedEvents false burnId gen =
        some (generateCoupon ev gen) ∧
      ∀ c, gen ev = .ok c →
        getCoupon redeemedEvents burnedEvents false burnId gen =
          some ([.redeemed (ev.updateAfterRedeem c)], .ok c)) ∧
    (alookup burnId redeemedEvents = none → alookup burnId burnedEvents = none →
      getCoupon redeemedEvents burnedEvents false burnId gen =
        some ([], .error (.unknownBurnId burnId))) := by
  refine ⟨?_, ?_, ?_⟩
  · intro ev c h1 h2
    simp [getCoupon, h1, h2]
  · intro ev h1 h2
    refine ⟨by simp [getCoupon, h1, h2], ?_⟩
    intro c hg
    simp [getCoupon, h1, h2, generateCoupon, hg]
  · intro h1 h2
    simp [getCoupon, h1, h2]

/-- C7 witness: the three branches at concrete stores — a stored coupon
is returned as-is, a burned-only id is re-signed, an unknown id errors. -/
theorem get_coupon_cases_witness :
    getCoupon [(0, redeemedEvent500)] [] false 0
        (fun _ => .error (.unknownBurnId 99)) = some ([], .ok sampleCoupon) ∧
    getCoupon [] [(0, burnedEvent500)] false 0 (fun _ => .ok sampleCoupon) =
      some ([.redeemed (burnedEvent500.updateAfterRedeem sampleCoupon)],
        .ok sampleCoupon) ∧
    getCoupon [] [] false 0 (fun _ => .ok sampleCoupon) =
      some ([], .error (.unknownBurnId 0)) :=
  ⟨(get_coupon_cases [(0, redeemedEvent500)] [] 0 _).1 redeemedEvent500 sampleCoupon
      rfl rfl,
   ((get_coupon_cases [] [(0, burnedEvent500)] 0 _).2.1 burnedEvent500 rfl rfl).2
      sampleCoupon rfl,
   (get_coupon_cases [] [] 0 _).2.2 rfl rfl⟩
